import Mathlib

/-!
Shallow embedding of the formula-evaluation service
(`src/apps/main.py` and `src/apps/schemas.py`).

Scalar values are modelled by `Value` (Python floats as exact rationals;
the concrete values appearing in the properties below are all exactly
representable).  Python dicts are modelled as association lists with
first-match lookup and replace-or-append update, which coincides with
dict semantics on duplicate-free key lists.  Exceptions are modelled by
`Except` with a structured error type mirroring the distinct `raise`
sites of the source.

External libraries are modelled as follows:
* CPython's `float(...)` on strings is `pyFloatChars` (optional sign,
  digits with an optional dot, optional exponent; the `inf`/`nan`
  and underscore forms are not modelled — no property depends on them);
  on non-strings it is `pyFloat`.
* `dateutil.parser.parse` is `parse_date`, a stand-in whose exact
  behaviour no property depends on.
* `numexpr.evaluate` is `numexpr_eval` over a small arithmetic
  expression syntax tree `Expr`.  A variable that is not bound in the
  supplied dictionary makes `numexpr` fall back to the caller's module
  globals, none of which is a usable numeric operand in `main.py`, so
  every unbound name yields an exception; this is modelled as `none`.
* The regular expression of `parse_currency`,
  `([A-Za-z]{3})?\s?\$?\s?([0-9,.]+)` under `re.match`, is modelled by
  `currencyMatch` with the same greedy-with-backtracking alternatives.
-/

deriving instance DecidableEq for Except

namespace FormulaEval

/-- Scalar values flowing through the service (Python floats as `ℚ`). -/
inductive Value where
  | num (q : ℚ)
  | str (s : String)
  | bool (b : Bool)
  | datetime (s : String)
deriving DecidableEq

/-- One data record: a Python dict from field name to value. -/
abbrev Record := List (String × Value)

/-- Dict lookup (first matching key). -/
def lookupField : Record → String → Option Value
  | [], _ => none
  | (k, v) :: r, key => if k = key then some v else lookupField r key

/-- Dict update: replace the first binding of the key, else append. -/
def setField : Record → String → Value → Record
  | [], key, v => [(key, v)]
  | (k, w) :: r, key, v =>
    if k = key then (k, v) :: r else (k, w) :: setField r key v

/-- The key set of a record (`item.keys()`). -/
def fieldNames (r : Record) : List String := r.map Prod.fst

/-- Python truthiness (`bool(value)`): non-zero / non-empty is true. -/
def pyTruthy : Value → Bool
  | .num q => q != 0
  | .str s => !s.isEmpty
  | .bool b => b
  | .datetime _ => true

/-- Characters accepted by Python's `\s` (ASCII fragment). -/
def isPySpace (c : Char) : Bool :=
  c == ' ' || c == '\t' || c == '\n' || c == '\r' || c == '\x0b' || c == '\x0c'

/-- Numeric value of a digit string, most significant first. -/
def digitsVal (cs : List Char) : ℕ :=
  cs.foldl (fun a c => 10 * a + (c.toNat - 48)) 0

/-- Model of CPython `float(s)` for strings: optional surrounding
whitespace, optional sign, digits with an optional single dot (at least
one digit overall), optional exponent.  `inf`, `nan` and underscore
separators are not modelled; no property below depends on them.  The
rational `s · (ip.fp) · 10^(±ed)` is assembled through `mkRat` (integer
numerator over a power-of-ten denominator) so that it evaluates by
kernel reduction. -/
def pyFloatChars (cs0 : List Char) : Option ℚ :=
  let cs1 := cs0.dropWhile isPySpace
  let cs := (cs1.reverse.dropWhile isPySpace).reverse
  let sgn : ℤ := match cs with
    | '-' :: _ => -1
    | _ => 1
  let m : List Char := match cs with
    | '+' :: r => r
    | '-' :: r => r
    | r => r
  let ip := m.takeWhile Char.isDigit
  let m1 := m.dropWhile Char.isDigit
  let fp : List Char := match m1 with
    | '.' :: r => r.takeWhile Char.isDigit
    | _ => []
  let m2 : List Char := match m1 with
    | '.' :: r => r.dropWhile Char.isDigit
    | r => r
  if ip.length + fp.length = 0 then none
  else
    let mnum : ℤ := sgn * (digitsVal ip * 10 ^ fp.length + digitsVal fp)
    match m2 with
    | [] => some (mkRat mnum (10 ^ fp.length))
    | e :: r =>
      if e == 'e' || e == 'E' then
        let eNeg : Bool := match r with
          | '-' :: _ => true
          | _ => false
        let r1 : List Char := match r with
          | '+' :: rr => rr
          | '-' :: rr => rr
          | rr => rr
        let ed := r1.takeWhile Char.isDigit
        let r2 := r1.dropWhile Char.isDigit
        if ed.length = 0 ∨ r2.length ≠ 0 then none
        else if eNeg then
          some (mkRat mnum (10 ^ fp.length * 10 ^ digitsVal ed))
        else
          some (mkRat (mnum * 10 ^ digitsVal ed) (10 ^ fp.length))
      else none

/-- Model of CPython `float(value)` on service values: numbers pass
through, booleans become 0/1, strings are parsed, datetimes fail
(Python raises there). -/
def pyFloat : Value → Option ℚ
  | .num q => some q
  | .bool b => some (if b then 1 else 0)
  | .str s => pyFloatChars s.data
  | .datetime _ => none

/-- Model of the external `dateutil.parser.parse` (library code, not
part of this repository): its exact behaviour is not relevant to any
property below; the stand-in accepts any string containing a digit. -/
def parse_date (s : String) : Option Value :=
  if s.data.any Char.isDigit then some (.datetime s) else none

/-- Characters of the regex class `[0-9,.]`. -/
def isCurrencyDigit (c : Char) : Bool :=
  c.isDigit || c == '.' || c == ','

/-- The `value.replace(',', '')` step of `parse_currency`. -/
def stripCommas (s : String) : List Char :=
  s.data.filter (fun c => c != ',')

/-- Final regex element `([0-9,.]+)`: the (greedy, maximal) group-2 run. -/
def grp2OfRun (cs : List Char) : Option (List Char) :=
  let run := cs.takeWhile isCurrencyDigit
  if run.isEmpty then none else some run

/-- Regex tail `\s?([0-9,.]+)`: prefer consuming one space. -/
def matchTail2 (cs : List Char) : Option (List Char) :=
  match cs with
  | c :: r =>
    if isPySpace c then (grp2OfRun r).orElse (fun _ => grp2OfRun cs)
    else grp2OfRun cs
  | [] => grp2OfRun cs

/-- Regex tail `\$?\s?([0-9,.]+)`: prefer consuming one dollar sign. -/
def matchTail1 (cs : List Char) : Option (List Char) :=
  match cs with
  | '$' :: r => (matchTail2 r).orElse (fun _ => matchTail2 cs)
  | _ => matchTail2 cs

/-- Regex tail `\s?\$?\s?([0-9,.]+)`. -/
def matchTail0 (cs : List Char) : Option (List Char) :=
  match cs with
  | c :: r =>
    if isPySpace c then (matchTail1 r).orElse (fun _ => matchTail1 cs)
    else matchTail1 cs
  | [] => matchTail1 cs

/-- Model of `re.match(r'([A-Za-z]{3})?\s?\$?\s?([0-9,.]+)', cs)`,
returning the text of capture group 2: the optional 3-letter run is
tried greedily with backtracking, like each optional element. -/
def currencyMatch (cs : List Char) : Option (List Char) :=
  match cs with
  | a :: b :: c :: r =>
    if a.isAlpha && b.isAlpha && c.isAlpha then
      (matchTail0 r).orElse (fun _ => matchTail0 cs)
    else matchTail0 cs
  | _ => matchTail0 cs

/-- Embedding of `parse_currency` (main.py lines 13-32): strip commas,
match the currency pattern, and `float(...)` group 2; `none` models the
raised `ValueError` (either no match or a failing float conversion). -/
def parse_currency (s : String) : Option ℚ :=
  match currencyMatch (stripCommas s) with
  | some g2 => pyFloatChars g2
  | none => none

/-- Does the string end with a percent sign (`value.endswith('%')`)? -/
def endsPercent (s : String) : Bool :=
  match s.data.getLast? with
  | some c => c == '%'
  | none => false

/-- Python `value.strip('%')`: remove every leading and trailing `%`. -/
def stripPercentChars (cs : List Char) : List Char :=
  ((cs.dropWhile (· == '%')).reverse.dropWhile (· == '%')).reverse

/-- Failures of `convert_variable`, one constructor per raise site:
`coercion` for a value the branch cannot convert (the `ValueError`
raised inside the `try`), `unsupported` for an unrecognized type tag
(the final `raise` after the `try`). -/
inductive ConvertError where
  | coercion (value : Value) (varType : String)
  | unsupported (varType : String)
deriving DecidableEq

/-- Shared shape of the `float(value)` conversions inside
`convert_variable`. -/
def plainFloat (v : Value) (tag : String) : Except ConvertError Value :=
  match pyFloat v with
  | some q => .ok (.num q)
  | none => .error (.coercion v tag)

/-- Branch `var_type == "number"`: `float(value)`. -/
def coerce_number (value : Value) : Except ConvertError Value :=
  plainFloat value "number"

/-- Branch `var_type == "boolean"`: `bool(value)` (never fails). -/
def coerce_boolean (value : Value) : Except ConvertError Value :=
  .ok (.bool (pyTruthy value))

/-- Branch `var_type == "datetime"`: `parse_date(value)` for strings,
any other value passes through unchanged. -/
def coerce_datetime (value : Value) : Except ConvertError Value :=
  match value with
  | .str s =>
    match parse_date s with
    | some d => .ok d
    | none => .error (.coercion (.str s) "datetime")
  | v => .ok v

/-- Branch `var_type == "percentage"`: a string ending in `%` is
stripped with `value.strip('%')` (both ends!) and parsed as a float;
everything else is `float(value)`. -/
def coerce_percentage (value : Value) : Except ConvertError Value :=
  match value with
  | .str s =>
    if endsPercent s then
      match pyFloatChars (stripPercentChars s.data) with
      | some q => .ok (.num q)
      | none => .error (.coercion (.str s) "percentage")
    else plainFloat (.str s) "percentage"
  | v => plainFloat v "percentage"

/-- Branch `var_type == "currency"`: strings go through
`parse_currency`, other values through `float(value)`. -/
def coerce_currency (value : Value) : Except ConvertError Value :=
  match value with
  | .str s =>
    match parse_currency s with
    | some q => .ok (.num q)
    | none => .error (.coercion (.str s) "currency")
  | v => plainFloat v "currency"

/-- Embedding of `convert_variable` (main.py lines 35-62): the
`if`/`elif` chain over the declared type tag, with the trailing
`raise ValueError(f"Unsupported variable type: ...")`. -/
def convert_variable (value : Value) (varType : String) : Except ConvertError Value :=
  if varType = "number" then coerce_number value
  else if varType = "boolean" then coerce_boolean value
  else if varType = "datetime" then coerce_datetime value
  else if varType = "percentage" then coerce_percentage value
  else if varType = "currency" then coerce_currency value
  else .error (.unsupported varType)

/-- Arithmetic expression syntax, the fragment of `numexpr` the service
exercises (the Python code stores expressions as strings; the embedding
stores them already parsed). -/
inductive Expr where
  | const (q : ℚ)
  | var (name : String)
  | add (a b : Expr)
  | sub (a b : Expr)
  | mul (a b : Expr)
deriving DecidableEq

/-- Rational addition written through `mkRat` so concrete runs reduce
in the kernel; `qadd_eq_add` certifies it is ordinary addition. -/
def qadd (a b : ℚ) : ℚ :=
  mkRat (a.num * b.den + b.num * a.den) (a.den * b.den)

/-- Rational subtraction through `mkRat`; see `qsub_eq_sub`. -/
def qsub (a b : ℚ) : ℚ :=
  mkRat (a.num * b.den - b.num * a.den) (a.den * b.den)

/-- Rational multiplication through `mkRat`; see `qmul_eq_mul`. -/
def qmul (a b : ℚ) : ℚ :=
  mkRat (a.num * b.num) (a.den * b.den)

/-- Numeric view a value gets inside `numexpr` arithmetic (booleans are
promoted; strings and datetime objects are not usable operands). -/
def toNum : Value → Option ℚ
  | .num q => some q
  | .bool b => some (if b then 1 else 0)
  | _ => none

/-- Model of `numexpr.evaluate(expr, local_dict=scope)` combined with
`result.item()`.  A name missing from `scope` makes `numexpr` fall back
to the caller's module globals; in `main.py` no global is a usable
numeric operand, so every unbound name raises — modelled as `none`, as
is any operand `numexpr` cannot treat numerically. -/
def numexpr_eval (scope : String → Option Value) : Expr → Option Value
  | .const q => some (.num q)
  | .var n =>
    match scope n with
    | some (.num q) => some (.num q)
    | some (.bool b) => some (.bool b)
    | _ => none
  | .add a b =>
    match numexpr_eval scope a, numexpr_eval scope b with
    | some x, some y =>
      match toNum x, toNum y with
      | some p, some q => some (.num (qadd p q))
      | _, _ => none
    | _, _ => none
  | .sub a b =>
    match numexpr_eval scope a, numexpr_eval scope b with
    | some x, some y =>
      match toNum x, toNum y with
      | some p, some q => some (.num (qsub p q))
      | _, _ => none
    | _, _ => none
  | .mul a b =>
    match numexpr_eval scope a, numexpr_eval scope b with
    | some x, some y =>
      match toNum x, toNum y with
      | some p, some q => some (.num (qmul p q))
      | _, _ => none
    | _, _ => none

/-- Variable names occurring in an expression. -/
def exprVars : Expr → List String
  | .const _ => []
  | .var n => [n]
  | .add a b => exprVars a ++ exprVars b
  | .sub a b => exprVars a ++ exprVars b
  | .mul a b => exprVars a ++ exprVars b

/-- Schema `InputVar` (schemas.py): a name and a declared type tag. -/
structure InputVar where
  varName : String
  varType : String
deriving DecidableEq

/-- Schema `Formula` (schemas.py): output name, expression, inputs. -/
structure Formula where
  outputVar : String
  expression : Expr
  inputs : List InputVar
deriving DecidableEq

/-- Schema `FormulaRequest` (schemas.py): the request body. -/
structure FormulaRequest where
  data : List Record
  formulas : List Formula
deriving DecidableEq

/-- Errors of the service, one constructor per `raise HTTPException`
site of `main.py` (each carries the data interpolated into `detail`). -/
inductive ApiError where
  | emptyData
  | emptyFormulas
  | unresolvedVariable (varName : String) (outputVar : String)
  | selfReference (outputVar : String)
  | formulaSyntax (outputVar : String) (expression : Expr)
  | conversionError (err : ConvertError)
  | missingField (varName : String) (recordId : Value)
  | evaluationError (expression : Expr)
deriving DecidableEq

/-- The dry-run dictionary `{var.varName: 1 for var in formula.inputs}`
of validation (main.py line 102): exactly the formula's own declared
input names, each bound to 1. -/
def dryScope (inputs : List InputVar) : String → Option Value :=
  fun n => if n ∈ inputs.map (·.varName) then some (.num 1) else none

/-- The `for formula in formulas` loop of `validate_formulas`
(main.py lines 83-110), carrying `available_vars` and `evaluated_vars`:
first raise on the first input that is in neither set, then on
self-reference, then on a failing dry-run evaluation; on success add
the output name to `evaluated_vars` and continue. -/
def validate_loop (available : List String) (evaluated : List String) :
    List Formula → Except ApiError Unit
  | [] => .ok ()
  | f :: rest =>
    match f.inputs.find?
        (fun iv => decide (iv.varName ∉ available ∧ iv.varName ∉ evaluated)) with
    | some iv => .error (.unresolvedVariable iv.varName f.outputVar)
    | none =>
      if f.outputVar ∈ f.inputs.map (·.varName) then
        .error (.selfReference f.outputVar)
      else
        match numexpr_eval (dryScope f.inputs) f.expression with
        | none => .error (.formulaSyntax f.outputVar f.expression)
        | some _ => validate_loop available (f.outputVar :: evaluated) rest

/-- Embedding of `validate_formulas` (main.py lines 65-110):
`available_vars = set(data[0].keys())`, `evaluated_vars = set()`, then
the formula loop.  (`data[0]` of an empty batch is unreachable: the
endpoint rejects empty data first; the embedding totalizes it with an
empty record.) -/
def validate_formulas (data : List Record) (formulas : List Formula) :
    Except ApiError Unit :=
  validate_loop (fieldNames (data.headD [])) [] formulas

/-- The `item.get('id', 'unknown')` of the missing-field message. -/
def recordId (item : Record) : Value :=
  (lookupField item "id").getD (.str "unknown")

/-- The `for input_var in formula.inputs` loop of `evaluate_formulas`
(main.py lines 156-171): build the `variables` dict in declared order;
a name absent from `local_item` raises the missing-field error, a
failing conversion raises the conversion error — whichever comes first
in input order. -/
def build_variables (item local_item : Record) :
    List InputVar → Record → Except ApiError Record
  | [], acc => .ok acc
  | iv :: rest, acc =>
    match lookupField local_item iv.varName with
    | some v =>
      match convert_variable v iv.varType with
      | .ok cv => build_variables item local_item rest (setField acc iv.varName cv)
      | .error e => .error (.conversionError e)
    | none => .error (.missingField iv.varName (recordId item))

/-- The result dictionary, mapping each output variable to its series. -/
abbrev ResultSet := List (String × List Value)

/-- `results = {formula.outputVar: [] for formula in formulas}`
(main.py line 146): one empty series per distinct output variable, in
first-occurrence order. -/
def init_results (formulas : List Formula) : ResultSet :=
  formulas.foldl
    (fun rs f => if rs.any (fun p => p.1 == f.outputVar) then rs
                 else rs ++ [(f.outputVar, [])]) []

/-- `results[formula.outputVar].append(result_value)` (main.py line
179); every appended key exists in `results` along all reachable
paths, the fresh-key case only totalizes the function. -/
def appendResult : ResultSet → String → Value → ResultSet
  | [], key, v => [(key, [v])]
  | (k, vs) :: rest, key, v =>
    if k = key then (k, vs ++ [v]) :: rest
    else (k, vs) :: appendResult rest key v

/-- The `for formula in formulas` loop of `evaluate_formulas`
(main.py lines 154-186) for one record: build the variables dict,
evaluate the expression over it, append the result to the output
series and write it into `local_item` for the following formulas. -/
def exec_formulas (item : Record) :
    List Formula → Record → ResultSet → Except ApiError (ResultSet × Record)
  | [], local_item, results => .ok (results, local_item)
  | f :: rest, local_item, results =>
    match build_variables item local_item f.inputs [] with
    | .error e => .error e
    | .ok vars =>
      match numexpr_eval (lookupField vars) f.expression with
      | none => .error (.evaluationError f.expression)
      | some rv =>
        exec_formulas item rest (setField local_item f.outputVar rv)
          (appendResult results f.outputVar rv)

/-- The `for item in data_items` loop of `evaluate_formulas`
(main.py lines 149-186): each record starts from a fresh copy
`local_item = item.copy()` and threads the shared results dict. -/
def exec_items (formulas : List Formula) :
    List Record → ResultSet → Except ApiError ResultSet
  | [], results => .ok results
  | item :: rest, results =>
    match exec_formulas item formulas item results with
    | .error e => .error e
    | .ok (results', _) => exec_items formulas rest results'

/-- The successful response body of `/api/execute-formula`. -/
structure ApiResponse where
  results : ResultSet
  status : String
  message : String
deriving DecidableEq

/-- Embedding of the `evaluate_formulas` endpoint (main.py lines
113-197): reject empty data, reject empty formulas, validate, then
execute every record and return the assembled results. -/
def evaluate_formulas (req : FormulaRequest) : Except ApiError ApiResponse :=
  if req.data.length = 0 then .error .emptyData
  else if req.formulas.length = 0 then .error .emptyFormulas
  else
    match validate_formulas req.data req.formulas with
    | .error e => .error e
    | .ok _ =>
      match exec_items req.formulas req.data (init_results req.formulas) with
      | .error e => .error e
      | .ok results =>
        .ok ⟨results, "success",
          "The formulas were executed successfully with variable-based chaining."⟩

/-!
Theorems about the embedded program.  The helper lemmas come first,
then one theorem per claim (with its witness or counterexample).
-/

/-- Certification that `qadd` is rational addition. -/
lemma qadd_eq_add (a b : ℚ) : qadd a b = a + b := by
  have ha : (a.den : ℚ) ≠ 0 := Nat.cast_ne_zero.mpr a.den_nz
  have hb : (b.den : ℚ) ≠ 0 := Nat.cast_ne_zero.mpr b.den_nz
  rw [qadd, Rat.mkRat_eq_div]
  push_cast
  conv_rhs => rw [← Rat.num_div_den a, ← Rat.num_div_den b]
  rw [div_add_div _ _ ha hb]
  ring

/-- Certification that `qsub` is rational subtraction. -/
lemma qsub_eq_sub (a b : ℚ) : qsub a b = a - b := by
  have ha : (a.den : ℚ) ≠ 0 := Nat.cast_ne_zero.mpr a.den_nz
  have hb : (b.den : ℚ) ≠ 0 := Nat.cast_ne_zero.mpr b.den_nz
  rw [qsub, Rat.mkRat_eq_div]
  push_cast
  conv_rhs => rw [← Rat.num_div_den a, ← Rat.num_div_den b]
  rw [div_sub_div _ _ ha hb]
  ring

/-- Certification that `qmul` is rational multiplication. -/
lemma qmul_eq_mul (a b : ℚ) : qmul a b = a * b := by
  rw [qmul, Rat.mkRat_eq_div]
  push_cast
  conv_rhs => rw [← Rat.num_div_den a, ← Rat.num_div_den b]
  rw [div_mul_div_comm]

/-- Unfolding of the type-tag dispatch at tag `"boolean"`. -/
lemma convert_variable_boolean (v : Value) :
    convert_variable v "boolean" = coerce_boolean v := by
  simp [convert_variable]

/-- Unfolding of the type-tag dispatch at tag `"percentage"`. -/
lemma convert_variable_percentage (v : Value) :
    convert_variable v "percentage" = coerce_percentage v := by
  simp [convert_variable]

/-- Unfolding of the type-tag dispatch at tag `"currency"`. -/
lemma convert_variable_currency (v : Value) :
    convert_variable v "currency" = coerce_currency v := by
  simp [convert_variable]

/-- Spec-words reading of claim C6's general rule, for comparison with
the code: "strips the suffix" removes the single trailing `%` and the
remainder is parsed as a plain float. -/
def claimC6_strip_suffix_only (s : String) : Option ℚ :=
  pyFloatChars s.data.dropLast

/-- C6 counterexample: on `"%50%"` the code returns `50.0` (Python's
`strip('%')` removes the *leading* percent sign as well), while the
claim's rule — parse `"%50"`, the string with only the suffix stripped,
as a plain float — cannot produce any value at all. -/
theorem claim_C6_counterexample :
    convert_variable (.str "%50%") "percentage" = .ok (.num 50)
    ∧ claimC6_strip_suffix_only "%50%" = none := by
  exact ⟨by decide, by decide⟩

/-- C6 (amended): coercing `"50%"` under `percentage` yields `50.0`,
not `0.5`; for every string ending in `%` the code strips **all
leading and trailing** `%` characters (Python `strip('%')`) and parses
the remainder as a plain float, never dividing by 100; every value that
is not a `%`-suffixed string is parsed as a plain float. -/
theorem claim_C6_amended :
    convert_variable (.str "50%") "percentage" = .ok (.num 50)
    ∧ (∀ s : String, endsPercent s = true →
        convert_variable (.str s) "percentage" =
          match pyFloatChars (stripPercentChars s.data) with
          | some q => .ok (.num q)
          | none => .error (.coercion (.str s) "percentage"))
    ∧ (∀ v : Value, (∀ s, v = .str s → endsPercent s = false) →
        convert_variable v "percentage" = plainFloat v "percentage") := by
  refine ⟨by decide, ?_, ?_⟩
  · intro s h
    rw [convert_variable_percentage]
    simp [coerce_percentage, h]
  · intro v h
    rw [convert_variable_percentage]
    cases v with
    | str s => simp [coerce_percentage, h s rfl]
    | num q => simp [coerce_percentage]
    | bool b => simp [coerce_percentage]
    | datetime d => simp [coerce_percentage]

/-- Witness for C6 (amended): the two conditional parts evaluated at
`"9%"` and at the number `3`. -/
theorem claim_C6_amended_witness :
    convert_variable (.str "9%") "percentage" = .ok (.num 9)
    ∧ convert_variable (.num 3) "percentage" = .ok (.num 3) := by
  constructor
  · rw [claim_C6_amended.2.1 "9%" (by decide)]; decide
  · rw [claim_C6_amended.2.2 (.num 3) (fun s hs => nomatch hs)]; decide

/-- C7: currency coercion accepts an ISO code with a thousands
separator and a plain `$` amount, both yielding `1234.50`; a string the
currency pattern does not match at all raises a coercion failure; an
already-numeric value passes through. -/
theorem claim_C7 :
    convert_variable (.str "USD 1,234.50") "currency" = .ok (.num (1234.5 : ℚ))
    ∧ convert_variable (.str "$1234.50") "currency" = .ok (.num (1234.5 : ℚ))
    ∧ (∀ s : String, currencyMatch (stripCommas s) = none →
        convert_variable (.str s) "currency" = .error (.coercion (.str s) "currency"))
    ∧ (∀ q : ℚ, convert_variable (.num q) "currency" = .ok (.num q)) := by
  have hq : (1234.5 : ℚ) = mkRat 2469 2 := by rw [Rat.mkRat_eq_div]; norm_num
  refine ⟨by rw [hq]; decide, by rw [hq]; decide, ?_, ?_⟩
  · intro s h
    rw [convert_variable_currency]
    simp [coerce_currency, parse_currency, h]
  · intro q
    rw [convert_variable_currency]
    simp [coerce_currency, plainFloat, pyFloat]

/-- Witness for C7: the conditional parts evaluated at `"abc"` (no
numeric portion) and at the number `7`. -/
theorem claim_C7_witness :
    convert_variable (.str "abc") "currency" = .error (.coercion (.str "abc") "currency")
    ∧ convert_variable (.num 7) "currency" = .ok (.num 7) := by
  exact ⟨claim_C7.2.2.1 "abc" (by decide), claim_C7.2.2.2 7⟩

/-- C8: boolean coercion is native truthiness with no string
special-casing: every value maps to its Python truth value, so the text
`"false"` coerces to true, the empty string to false, and the number
`0` to false. -/
theorem claim_C8 :
    (∀ v : Value, convert_variable v "boolean" = .ok (.bool (pyTruthy v)))
    ∧ convert_variable (.str "false") "boolean" = .ok (.bool true)
    ∧ convert_variable (.str "") "boolean" = .ok (.bool false)
    ∧ convert_variable (.num 0) "boolean" = .ok (.bool false) := by
  refine ⟨?_, by decide, by decide, by decide⟩
  intro v
  rw [convert_variable_boolean]
  rfl

/-- C9: every type tag outside the five supported ones is rejected with
the distinct unsupported-type failure (a different constructor from the
coercion failure), for every value. -/
theorem claim_C9 :
    ∀ (v : Value) (t : String),
      t ∉ ["number", "boolean", "datetime", "percentage", "currency"] →
      convert_variable v t = .error (.unsupported t)
      ∧ ∀ (w : Value) (ty : String),
          ConvertError.unsupported t ≠ ConvertError.coercion w ty := by
  intro v t h
  have h1 : ¬ t = "number" := fun e => h (by rw [e]; decide)
  have h2 : ¬ t = "boolean" := fun e => h (by rw [e]; decide)
  have h3 : ¬ t = "datetime" := fun e => h (by rw [e]; decide)
  have h4 : ¬ t = "percentage" := fun e => h (by rw [e]; decide)
  have h5 : ¬ t = "currency" := fun e => h (by rw [e]; decide)
  refine ⟨?_, fun w ty hh => ConvertError.noConfusion hh⟩
  simp [convert_variable, h1, h2, h3, h4, h5]

/-- Witness for C9: the unsupported tag `"string"` on the value `1`. -/
theorem claim_C9_witness :
    convert_variable (.num 1) "string" = .error (.unsupported "string") :=
  (claim_C9 (.num 1) "string" (by decide)).1

/-- Formulas whose inputs are all resolvable produce no unresolved
find in the validation loop. -/
lemma find?_resolvable_none (inputs : List InputVar) (av ev : List String)
    (hres : ∀ iv ∈ inputs, iv.varName ∈ av ∨ iv.varName ∈ ev) :
    inputs.find? (fun iv => decide (iv.varName ∉ av ∧ iv.varName ∉ ev)) = none := by
  rw [List.find?_eq_none]
  intro iv hiv
  simp only [decide_eq_true_eq]
  rcases hres iv hiv with h | h
  · exact fun hc => hc.1 h
  · exact fun hc => hc.2 h

/-- An expression containing a variable the scope does not bind cannot
be evaluated by `numexpr_eval`. -/
lemma numexpr_eval_unbound :
    ∀ (e : Expr) (scope : String → Option Value),
      (∃ n ∈ exprVars e, scope n = none) → numexpr_eval scope e = none := by
  intro e
  induction e with
  | const q =>
    rintro scope ⟨n, hn, _⟩
    simp [exprVars] at hn
  | var m =>
    rintro scope ⟨n, hn, hs⟩
    have hnm : n = m := by simpa [exprVars] using hn
    subst hnm
    simp [numexpr_eval, hs]
  | add a b iha ihb =>
    rintro scope ⟨n, hn, hs⟩
    rcases List.mem_append.mp (by simpa [exprVars] using hn) with h | h
    · simp [numexpr_eval, iha scope ⟨n, h, hs⟩]
    · cases hA : numexpr_eval scope a <;>
        simp [numexpr_eval, hA, ihb scope ⟨n, h, hs⟩]
  | sub a b iha ihb =>
    rintro scope ⟨n, hn, hs⟩
    rcases List.mem_append.mp (by simpa [exprVars] using hn) with h | h
    · simp [numexpr_eval, iha scope ⟨n, h, hs⟩]
    · cases hA : numexpr_eval scope a <;>
        simp [numexpr_eval, hA, ihb scope ⟨n, h, hs⟩]
  | mul a b iha ihb =>
    rintro scope ⟨n, hn, hs⟩
    rcases List.mem_append.mp (by simpa [exprVars] using hn) with h | h
    · simp [numexpr_eval, iha scope ⟨n, h, hs⟩]
    · cases hA : numexpr_eval scope a <;>
        simp [numexpr_eval, hA, ihb scope ⟨n, h, hs⟩]

/-- C1: the worked example — records `[{fieldA:10}, {fieldA:20}]` with
the single formula `result = fieldA + 10` (input `fieldA:number`)
succeed with the series `[20, 30]` for `result`, in record order — and
the general chaining step: a formula that evaluates to `rv` writes `rv`
into the record's scope under its output variable (and appends it to
the output series) before the remaining formulas run, so later formulas
of the same record can read it. -/
theorem claim_C1 :
    evaluate_formulas ⟨[[("fieldA", .num 10)], [("fieldA", .num 20)]],
        [⟨"result", .add (.var "fieldA") (.const 10), [⟨"fieldA", "number"⟩]⟩]⟩
      = .ok ⟨[("result", [.num 20, .num 30])], "success",
          "The formulas were executed successfully with variable-based chaining."⟩
    ∧ (∀ (item : Record) (f : Formula) (rest : List Formula) (local_item : Record)
          (results : ResultSet) (vars : Record) (rv : Value),
        build_variables item local_item f.inputs [] = .ok vars →
        numexpr_eval (lookupField vars) f.expression = some rv →
        exec_formulas item (f :: rest) local_item results
          = exec_formulas item rest (setField local_item f.outputVar rv)
              (appendResult results f.outputVar rv)) := by
  constructor
  · decide
  · intro item f rest local_item results vars rv h1 h2
    simp [exec_formulas, h1, h2]

/-- Witness for C1's chaining step at the first record of the worked
example: the formula writes `result := 20` into the scope and appends
it to the series before the (empty) remainder of the chain runs. -/
theorem claim_C1_witness :
    exec_formulas [("fieldA", Value.num 10)]
        [⟨"result", .add (.var "fieldA") (.const 10), [⟨"fieldA", "number"⟩]⟩]
        [("fieldA", Value.num 10)] [("result", [])]
      = exec_formulas [("fieldA", Value.num 10)] []
          (setField [("fieldA", Value.num 10)] "result" (.num 20))
          (appendResult [("result", [])] "result" (.num 20)) := by
  exact claim_C1.2 [("fieldA", Value.num 10)]
    ⟨"result", .add (.var "fieldA") (.const 10), [⟨"fieldA", "number"⟩]⟩
    [] [("fieldA", Value.num 10)] [("result", [])]
    [("fieldA", Value.num 10)] (.num 20) (by decide) (by decide)

/-- C10: the validation dry run binds exactly the formula's own
declared InputRef names (each to the placeholder 1); consequently, once
validation reaches a formula that passes the resolvability and
self-reference checks, an expression referencing any name outside the
formula's own InputRefs — even a field of the sample record (a member
of `available`) or an earlier output (a member of `evaluated`) — is
rejected with the formula-syntax error. -/
theorem claim_C10 :
    (∀ (inputs : List InputVar) (n : String),
        dryScope inputs n
          = if n ∈ inputs.map (·.varName) then some (.num 1) else none)
    ∧ (∀ (available evaluated : List String) (f : Formula) (rest : List Formula),
        (∀ iv ∈ f.inputs, iv.varName ∈ available ∨ iv.varName ∈ evaluated) →
        f.outputVar ∉ f.inputs.map (·.varName) →
        (∃ n ∈ exprVars f.expression, n ∉ f.inputs.map (·.varName)) →
        validate_loop available evaluated (f :: rest)
          = .error (.formulaSyntax f.outputVar f.expression)) := by
  refine ⟨fun _ _ => rfl, ?_⟩
  intro available evaluated f rest hres hself hfree
  obtain ⟨n, hn, hnin⟩ := hfree
  have heval : numexpr_eval (dryScope f.inputs) f.expression = none := by
    refine numexpr_eval_unbound f.expression _ ⟨n, hn, ?_⟩
    simp [dryScope, hnin]
  simp only [validate_loop,
    find?_resolvable_none f.inputs available evaluated hres, if_neg hself, heval]

/-- Witness for C10: the sample record offers `fieldA`, the formula
declares no inputs but its expression references `fieldA` — rejected
with the formula-syntax error even though `fieldA` is available. -/
theorem claim_C10_witness :
    validate_loop ["fieldA"] [] [⟨"r", .var "fieldA", []⟩]
      = .error (.formulaSyntax "r" (.var "fieldA")) := by
  exact claim_C10.2 ["fieldA"] [] ⟨"r", .var "fieldA", []⟩ []
    (by decide) (by decide) (by decide)

/-- C3 counterexample: the formula `x = x` (output `x`, one InputRef
`x`) over the batch `[{a:1}]` is self-referential, yet validation
rejects it with the *unresolved-variable* error (the resolvability
check at main.py line 86 fires before the self-reference check at line
94), not with the self-reference error the claim requires. -/
theorem claim_C3_counterexample :
    validate_formulas [[("a", .num 1)]] [⟨"x", .var "x", [⟨"x", "number"⟩]⟩]
      = .error (.unresolvedVariable "x" "x")
    ∧ ApiError.unresolvedVariable "x" "x" ≠ ApiError.selfReference "x" := by
  exact ⟨by decide, by decide⟩

/-- A formula list containing a self-referential formula never
validates: the loop errors before or at that formula. -/
lemma validate_loop_selfref_err :
    ∀ (fs : List Formula) (available evaluated : List String),
      (∃ f ∈ fs, f.outputVar ∈ f.inputs.map (·.varName)) →
      ∃ e, validate_loop available evaluated fs = .error e := by
  intro fs
  induction fs with
  | nil =>
    rintro av ev ⟨f, hf, _⟩
    simp at hf
  | cons g rest ih =>
    rintro av ev ⟨f, hf, hself⟩
    cases hfind : g.inputs.find?
        (fun iv => decide (iv.varName ∉ av ∧ iv.varName ∉ ev)) with
    | some iv => exact ⟨_, by simp only [validate_loop, hfind]; rfl⟩
    | none =>
      by_cases hg : g.outputVar ∈ g.inputs.map (·.varName)
      · exact ⟨_, by simp only [validate_loop, hfind, if_pos hg]; rfl⟩
      · have hfrest : f ∈ rest := by
          rcases List.mem_cons.mp hf with heq | h
          · subst heq; exact absurd hself hg
          · exact h
        cases heval : numexpr_eval (dryScope g.inputs) g.expression with
        | none => exact ⟨_, by simp only [validate_loop, hfind, if_neg hg, heval]; rfl⟩
        | some w =>
          obtain ⟨e, he⟩ := ih av (g.outputVar :: ev) ⟨f, hfrest, hself⟩
          exact ⟨e, by simp only [validate_loop, hfind, if_neg hg, heval]; exact he⟩

/-- C3 (amended): a batch containing a formula whose output variable
appears among its own InputRef names is always rejected by validation,
but the error kind is the self-reference error only when the loop
reaches that formula with all its inputs resolvable; with an
unresolvable input the unresolved-variable error fires first (see the
counterexample). -/
theorem claim_C3_amended :
    (∀ (data : List Record) (fs : List Formula),
        (∃ f ∈ fs, f.outputVar ∈ f.inputs.map (·.varName)) →
        ∃ e, validate_formulas data fs = .error e)
    ∧ (∀ (available evaluated : List String) (f : Formula) (rest : List Formula),
        (∀ iv ∈ f.inputs, iv.varName ∈ available ∨ iv.varName ∈ evaluated) →
        f.outputVar ∈ f.inputs.map (·.varName) →
        validate_loop available evaluated (f :: rest)
          = .error (.selfReference f.outputVar)) := by
  constructor
  · intro data fs h
    exact validate_loop_selfref_err fs _ [] h
  · intro available evaluated f rest hres hself
    simp only [validate_loop,
      find?_resolvable_none f.inputs available evaluated hres, if_pos hself]

/-- Witness for C3 (amended): the self-referential `x = x` is rejected
over `[{a:1}]` (with some error), and with `x` available the rejection
is the self-reference error. -/
theorem claim_C3_amended_witness :
    (∃ e, validate_formulas [[("a", Value.num 1)]]
        [⟨"x", .var "x", [⟨"x", "number"⟩]⟩] = .error e)
    ∧ validate_loop ["x"] [] [⟨"x", .var "x", [⟨"x", "number"⟩]⟩]
        = .error (.selfReference "x") := by
  constructor
  · exact claim_C3_amended.1 [[("a", Value.num 1)]]
      [⟨"x", .var "x", [⟨"x", "number"⟩]⟩] (by decide)
  · exact claim_C3_amended.2 ["x"] [] ⟨"x", .var "x", [⟨"x", "number"⟩]⟩ []
      (by decide) (by decide)

/-- The validation loop only consults `available` through membership:
two available sets with the same members validate identically. -/
lemma validate_loop_available_congr :
    ∀ (fs : List Formula) (av1 av2 ev : List String),
      (∀ k, k ∈ av1 ↔ k ∈ av2) →
      validate_loop av1 ev fs = validate_loop av2 ev fs := by
  intro fs
  induction fs with
  | nil => intro _ _ _ _; rfl
  | cons f rest ih =>
    intro av1 av2 ev h
    have hp : (fun iv : InputVar => decide (iv.varName ∉ av1 ∧ iv.varName ∉ ev))
        = (fun iv : InputVar => decide (iv.varName ∉ av2 ∧ iv.varName ∉ ev)) := by
      funext iv
      exact decide_eq_decide.mpr (by rw [h iv.varName])
    simp only [validate_loop, hp]
    cases hfind : f.inputs.find?
        (fun iv => decide (iv.varName ∉ av2 ∧ iv.varName ∉ ev)) with
    | some iv => rfl
    | none =>
      by_cases hs : f.outputVar ∈ f.inputs.map (·.varName)
      · simp [hs]
      · simp only [if_neg hs]
        cases heval : numexpr_eval (dryScope f.inputs) f.expression with
        | none => rfl
        | some w => exact ih av1 av2 (f.outputVar :: ev) h

/-- C4: validation depends only on the formula list and the key set of
the first record — two batches whose first records have the same field
names validate identically, whatever the values anywhere and whatever
the later records; and concretely, the schema-heterogeneous batch
`[{a:1}, {}]` passes validation and fails only at execution time with
the missing-field error. -/
theorem claim_C4 :
    (∀ (d1 d2 : List Record) (fs : List Formula),
        (∀ k, k ∈ fieldNames (d1.headD []) ↔ k ∈ fieldNames (d2.headD [])) →
        validate_formulas d1 fs = validate_formulas d2 fs)
    ∧ validate_formulas [[("a", .num 1)], []]
        [⟨"r", .add (.var "a") (.const 1), [⟨"a", "number"⟩]⟩] = .ok ()
    ∧ evaluate_formulas ⟨[[("a", .num 1)], []],
        [⟨"r", .add (.var "a") (.const 1), [⟨"a", "number"⟩]⟩]⟩
        = .error (.missingField "a" (.str "unknown")) := by
  refine ⟨?_, by decide, by decide⟩
  intro d1 d2 fs h
  exact validate_loop_available_congr fs _ _ [] h

/-- Witness for C4: two batches with the same first-record key set
`{a, b}` — but different key order, different values, and different
later records — validate identically. -/
theorem claim_C4_witness :
    validate_formulas [[("a", Value.num 1), ("b", Value.num 2)], []]
        [⟨"r", .add (.var "a") (.var "b"), [⟨"a", "number"⟩, ⟨"b", "number"⟩]⟩]
      = validate_formulas [[("b", Value.str "x"), ("a", Value.bool true)]]
        [⟨"r", .add (.var "a") (.var "b"), [⟨"a", "number"⟩, ⟨"b", "number"⟩]⟩] := by
  refine claim_C4.1 _ _ _ ?_
  intro k
  show k ∈ ["a", "b"] ↔ k ∈ ["b", "a"]
  simp [List.mem_cons]
  exact or_comm

/-- Looking a name up after a `setField` update: the updated key reads
back the new value, every other name is unchanged. -/
lemma lookupField_setField (r : Record) (k : String) (v : Value) (n : String) :
    lookupField (setField r k v) n = if n = k then some v else lookupField r n := by
  induction r with
  | nil =>
    by_cases h : n = k
    · subst h; simp [setField, lookupField]
    · simp [setField, lookupField, h, Ne.symm h]
  | cons p r ih =>
    obtain ⟨pk, pv⟩ := p
    by_cases hpk : pk = k
    · subst hpk
      by_cases hn : n = pk
      · subst hn; simp [setField, lookupField]
      · simp [setField, lookupField, hn, Ne.symm hn]
    · by_cases hn : pk = n
      · subst hn
        have hnk : ¬ pk = k := hpk
        simp [setField, lookupField, hpk, hnk]
      · simp [setField, lookupField, hpk, hn, ih]

/-- If some input's name is absent from the local scope, building the
variables dictionary fails (with whichever error comes first). -/
lemma build_variables_absent_err :
    ∀ (inputs : List InputVar) (item local_item : Record) (iv : InputVar)
      (acc : Record),
      iv ∈ inputs → lookupField local_item iv.varName = none →
      ∃ e, build_variables item local_item inputs acc = .error e := by
  intro inputs
  induction inputs with
  | nil =>
    intro _ _ iv _ hmem _
    simp at hmem
  | cons j rest ih =>
    intro item local_item iv acc hmem hlk
    cases hj : lookupField local_item j.varName with
    | none => exact ⟨_, by simp only [build_variables, hj]; rfl⟩
    | some v =>
      cases hcv : convert_variable v j.varType with
      | error e => exact ⟨_, by simp only [build_variables, hj, hcv]; rfl⟩
      | ok cv =>
        have hiv : iv ∈ rest := by
          rcases List.mem_cons.mp hmem with heq | h
          · subst heq; rw [hj] at hlk; cases hlk
          · exact h
        obtain ⟨e, he⟩ := ih item local_item iv (setField acc j.varName cv) hiv hlk
        exact ⟨e, by simp only [build_variables, hj, hcv]; exact he⟩

/-- If a formula's input is neither a field of the record nor the
output of an earlier formula of the chain, executing the chain on that
record fails (with whichever error comes first). -/
lemma exec_formulas_missing_err :
    ∀ (pre : List Formula) (f : Formula) (post : List Formula) (iv : InputVar)
      (item local_item : Record) (results : ResultSet),
      iv ∈ f.inputs →
      iv.varName ∉ pre.map Formula.outputVar →
      lookupField local_item iv.varName = none →
      ∃ e, exec_formulas item (pre ++ f :: post) local_item results = .error e := by
  intro pre
  induction pre with
  | nil =>
    intro f post iv item local_item results hmem _ hlk
    obtain ⟨e, he⟩ := build_variables_absent_err f.inputs item local_item iv [] hmem hlk
    exact ⟨e, by simp only [List.nil_append, exec_formulas, he]⟩
  | cons p pre ih =>
    intro f post iv item local_item results hmem hpre hlk
    cases hb : build_variables item local_item p.inputs [] with
    | error e => exact ⟨e, by simp only [List.cons_append, exec_formulas, hb]⟩
    | ok vars =>
      cases hev : numexpr_eval (lookupField vars) p.expression with
      | none => exact ⟨_, by simp only [List.cons_append, exec_formulas, hb, hev]; rfl⟩
      | some rv =>
        have hne : ¬ iv.varName = p.outputVar := by
          intro he; exact hpre (by simp [he])
        have hlk' : lookupField (setField local_item p.outputVar rv) iv.varName = none := by
          rw [lookupField_setField, if_neg hne]; exact hlk
        have hpre' : iv.varName ∉ pre.map Formula.outputVar := by
          intro h; exact hpre (by simp [h])
        obtain ⟨e, he⟩ := ih f post iv item (setField local_item p.outputVar rv)
          (appendResult results p.outputVar rv) hmem hpre' hlk'
        exact ⟨e, by simp only [List.cons_append, exec_formulas, hb, hev]; exact he⟩

/-- Records before a failing record either fail themselves or pass the
results dictionary along; either way the record loop errors. -/
lemma exec_items_err :
    ∀ (dpre : List Record) (formulas : List Formula) (r : Record)
      (dpost : List Record),
      (∀ results, ∃ e, exec_formulas r formulas r results = .error e) →
      ∀ results, ∃ e, exec_items formulas (dpre ++ r :: dpost) results = .error e := by
  intro dpre
  induction dpre with
  | nil =>
    intro formulas r dpost h results
    obtain ⟨e, he⟩ := h results
    exact ⟨e, by simp only [List.nil_append, exec_items, he]⟩
  | cons d dpre ih =>
    intro formulas r dpost h results
    cases hx : exec_formulas d formulas d results with
    | error e => exact ⟨e, by simp only [List.cons_append, exec_items, hx]⟩
    | ok pr =>
      obtain ⟨rs', loc'⟩ := pr
      obtain ⟨e, he⟩ := ih formulas r dpost h rs'
      exact ⟨e, by simp only [List.cons_append, exec_items, hx]; exact he⟩

/-- C2 counterexample: in the batch `[{a:"zz"}, {}]` with the formula
`r = a` (input `a:number`), the second record lacks the required field
`a`, yet execution aborts with the *conversion* error raised while
coercing the first record's `"zz"` — not with the missing-field error
the claim requires for every such batch. -/
theorem claim_C2_counterexample :
    evaluate_formulas ⟨[[("a", .str "zz")], []], [⟨"r", .var "a", [⟨"a", "number"⟩]⟩]⟩
      = .error (.conversionError (.coercion (.str "zz") "number"))
    ∧ ApiError.conversionError (.coercion (.str "zz") "number")
        ≠ ApiError.missingField "a" (.str "unknown") := by
  exact ⟨by decide, by decide⟩

/-- C2 (amended): a batch in which some record lacks a field that a
formula's InputRef requires and that no earlier formula's output
supplies always aborts with an error, and an aborted execution returns
no ResultSet at all (the error carries no results); the error is the
missing-field error naming the variable and the record's `id` when the
failing lookup is the first failure, but an earlier failure — e.g. a
conversion error in a previous record — aborts with that error instead
(see the counterexample). -/
theorem claim_C2_amended :
    (∀ (req : FormulaRequest) (dpre dpost : List Record) (r : Record)
        (pre post : List Formula) (f : Formula) (iv : InputVar),
        req.data = dpre ++ r :: dpost →
        req.formulas = pre ++ f :: post →
        iv ∈ f.inputs →
        lookupField r iv.varName = none →
        iv.varName ∉ pre.map Formula.outputVar →
        ∃ e, evaluate_formulas req = .error e)
    ∧ evaluate_formulas ⟨[[("a", .num 1)], []],
        [⟨"r", .add (.var "a") (.const 1), [⟨"a", "number"⟩]⟩]⟩
        = .error (.missingField "a" (.str "unknown")) := by
  constructor
  · intro req dpre dpost r pre post f iv hdata hform hmem hlk hpre
    have hnd : ¬ req.data.length = 0 := by rw [hdata]; simp
    have hnf : ¬ req.formulas.length = 0 := by rw [hform]; simp
    cases hv : validate_formulas req.data req.formulas with
    | error e =>
      exact ⟨e, by simp only [evaluate_formulas, if_neg hnd, if_neg hnf, hv]⟩
    | ok u =>
      have hrec : ∀ results, ∃ e, exec_formulas r req.formulas r results = .error e := by
        intro results
        rw [hform]
        exact exec_formulas_missing_err pre f post iv r r results hmem hpre hlk
      obtain ⟨e, he⟩ := exec_items_err dpre req.formulas r dpost hrec
        (init_results req.formulas)
      rw [← hdata] at he
      exact ⟨e, by simp only [evaluate_formulas, if_neg hnd, if_neg hnf, hv, he]⟩
  · decide

/-- Witness for C2 (amended): the batch `[{a:1}, {}]` — whose second
record lacks `a` — aborts with some error. -/
theorem claim_C2_amended_witness :
    ∃ e, evaluate_formulas ⟨[[("a", Value.num 1)], []],
        [⟨"r", .add (.var "a") (.const 1), [⟨"a", "number"⟩]⟩]⟩ = .error e := by
  exact claim_C2_amended.1
    ⟨[[("a", Value.num 1)], []], [⟨"r", .add (.var "a") (.const 1), [⟨"a", "number"⟩]⟩]⟩
    [[("a", Value.num 1)]] [] [] [] []
    ⟨"r", .add (.var "a") (.const 1), [⟨"a", "number"⟩]⟩ ⟨"a", "number"⟩
    rfl rfl (by decide) rfl (by decide)

/-- C5 counterexample: in the batch `[{a:1, b:1}, {a:"zz"}]` with the
formula `r = a + b` (inputs `a:number`, `b:number`), the second record
has input `a` present but uncoercible and input `b` absent — precisely
the claim's scenario — yet execution fails with the *conversion* error
(inputs are processed one at a time, lookup and coercion interleaved),
not with the missing-field error the claim predicts. -/
theorem claim_C5_counterexample :
    evaluate_formulas ⟨[[("a", .num 1), ("b", .num 1)], [("a", .str "zz")]],
        [⟨"r", .add (.var "a") (.var "b"), [⟨"a", "number"⟩, ⟨"b", "number"⟩]⟩]⟩
      = .error (.conversionError (.coercion (.str "zz") "number"))
    ∧ ApiError.conversionError (.coercion (.str "zz") "number")
        ≠ ApiError.missingField "b" (.str "unknown") := by
  exact ⟨by decide, by decide⟩

/-- The variables loop fails with the missing-field error when the
first failing input (every earlier one resolving and coercing) is an
absent one. -/
lemma build_variables_first_missing :
    ∀ (pre : List InputVar) (item local_item : Record) (iv : InputVar)
      (post : List InputVar) (acc : Record),
      (∀ j ∈ pre, ∃ v w, lookupField local_item j.varName = some v
          ∧ convert_variable v j.varType = .ok w) →
      lookupField local_item iv.varName = none →
      build_variables item local_item (pre ++ iv :: post) acc
        = .error (.missingField iv.varName (recordId item)) := by
  intro pre
  induction pre with
  | nil =>
    intro item local_item iv post acc _ hlk
    simp only [List.nil_append, build_variables, hlk]
  | cons j pre ih =>
    intro item local_item iv post acc hok hlk
    obtain ⟨v, w, hj, hw⟩ := hok j (List.mem_cons_self j pre)
    simp only [List.cons_append, build_variables, hj, hw]
    exact ih item local_item iv post _
      (fun j' hj' => hok j' (List.mem_cons_of_mem j hj')) hlk

/-- The variables loop fails with the conversion error when the first
failing input is present but uncoercible. -/
lemma build_variables_first_convfail :
    ∀ (pre : List InputVar) (item local_item : Record) (iv : InputVar)
      (post : List InputVar) (acc : Record) (v : Value) (err : ConvertError),
      (∀ j ∈ pre, ∃ w x, lookupField local_item j.varName = some w
          ∧ convert_variable w j.varType = .ok x) →
      lookupField local_item iv.varName = some v →
      convert_variable v iv.varType = .error err →
      build_variables item local_item (pre ++ iv :: post) acc
        = .error (.conversionError err) := by
  intro pre
  induction pre with
  | nil =>
    intro item local_item iv post acc v err _ hlk hcv
    simp only [List.nil_append, build_variables, hlk, hcv]
  | cons j pre ih =>
    intro item local_item iv post acc v err hok hlk hcv
    obtain ⟨w, x, hj, hw⟩ := hok j (List.mem_cons_self j pre)
    simp only [List.cons_append, build_variables, hj, hw]
    exact ih item local_item iv post _ v err
      (fun j' hj' => hok j' (List.mem_cons_of_mem j hj')) hlk hcv

/-- C5 (amended): within one formula the inputs are processed in
declared order with lookup and coercion interleaved, so the error is
decided by the first failing InputRef: if every earlier input resolves
and coerces and the first failing one is absent, the step fails with
the missing-field error naming the variable and the record's `id`; if
the first failing one is present but uncoercible, the step fails with
the conversion error — even when a later input is absent. -/
theorem claim_C5_amended :
    (∀ (pre : List InputVar) (item local_item : Record) (iv : InputVar)
        (post : List InputVar) (acc : Record),
        (∀ j ∈ pre, ∃ v w, lookupField local_item j.varName = some v
            ∧ convert_variable v j.varType = .ok w) →
        lookupField local_item iv.varName = none →
        build_variables item local_item (pre ++ iv :: post) acc
          = .error (.missingField iv.varName (recordId item)))
    ∧ (∀ (pre : List InputVar) (item local_item : Record) (iv : InputVar)
        (post : List InputVar) (acc : Record) (v : Value) (err : ConvertError),
        (∀ j ∈ pre, ∃ w x, lookupField local_item j.varName = some w
            ∧ convert_variable w j.varType = .ok x) →
        lookupField local_item iv.varName = some v →
        convert_variable v iv.varType = .error err →
        build_variables item local_item (pre ++ iv :: post) acc
          = .error (.conversionError err)) :=
  ⟨build_variables_first_missing, build_variables_first_convfail⟩

/-- Witness for C5 (amended), on the record `{a:"zz"}` with the inputs
`[a:number, b:number]` of the counterexample: with the absent `b`
first, the step fails with the missing-field error; with the
uncoercible `a` first, it fails with the conversion error. -/
theorem claim_C5_amended_witness :
    build_variables [("a", Value.str "zz")] [("a", Value.str "zz")]
        ([] ++ ⟨"b", "number"⟩ :: [⟨"a", "number"⟩]) []
      = .error (.missingField "b" (recordId [("a", Value.str "zz")]))
    ∧ build_variables [("a", Value.str "zz")] [("a", Value.str "zz")]
        ([] ++ ⟨"a", "number"⟩ :: [⟨"b", "number"⟩]) []
      = .error (.conversionError (.coercion (.str "zz") "number")) := by
  constructor
  · exact claim_C5_amended.1 [] [("a", Value.str "zz")] [("a", Value.str "zz")]
      ⟨"b", "number"⟩ [⟨"a", "number"⟩] []
      (by intro j hj; simp at hj) (by decide)
  · exact claim_C5_amended.2 [] [("a", Value.str "zz")] [("a", Value.str "zz")]
      ⟨"a", "number"⟩ [⟨"b", "number"⟩] [] (.str "zz")
      (.coercion (.str "zz") "number")
      (by intro j hj; simp at hj) (by decide) (by decide)

end FormulaEval
